import Mathlib

/-!
Verification of the Aquila S1000D-AI document-conversion system.

The React frontend functions (global LED aggregation, the publish stub, the
correction selection flow, and the XML/HTML editor transforms) are embedded
directly from the JavaScript sources.  The backend conversion pipeline,
identifier assignment and validation engine are not part of the source tree
(only their callers, documentation and tests are), so those components are
modelled from the specification; each such definition carries a doc comment
saying so.
-/

/-- Record of a data module as the frontend and the pipeline handle it:
the fields read by the functions verified below (validation_status and
info_variant are the S1000D status and variant strings, ste_score is the
simplified-technical-English score present only on "01" variants). -/
structure DataModule where
  dmc : String
  title : String
  dm_type : String
  info_variant : String
  content : String
  source_document_id : String
  validation_status : String
  validation_errors : List String
  ste_score : Option ℚ
  deriving Repr, DecidableEq

/-- Record of an illustration control number; only its identity matters to the
functions verified here. -/
structure ICN where
  icn_id : String
  filename : String
  caption : String
  deriving Repr, DecidableEq

/-- Embedded from src/frontend/src/App.js (calculateGlobalLEDStatus): the count
of modules carrying a given validation_status, mirroring the statusCounts
reduce accumulator. -/
def statusCount (modules : List DataModule) (s : String) : Nat :=
  (modules.filter (fun m => m.validation_status == s)).length

/-- Embedded from src/frontend/src/App.js lines 476-491: the global LED is red
when any module counts as red, else amber, else blue, else green (a missing
count behaves as zero). -/
def calculateGlobalLEDStatus (modules : List DataModule) : String :=
  if statusCount modules "red" > 0 then "red"
  else if statusCount modules "amber" > 0 then "amber"
  else if statusCount modules "blue" > 0 then "blue"
  else "green"

/-- Configuration state of the publish modal that handlePublish reads. -/
structure PublishConfig where
  variants : List String
  formats : List String
  scope : String
  includeIllustrations : Bool
  deriving Repr, DecidableEq

/-- Result object produced by handlePublish. -/
structure PublishResult where
  success : Bool
  modulesPublished : Nat
  illustrationsIncluded : Nat
  formats : List String
  variants : List String
  packageSize : String
  downloadUrl : String
  deriving Repr, DecidableEq

/-- Embedded from src/frontend/src/components/PublishModal.js lines 21-55
(handlePublish): filters the module list by the configured scope and returns a
canned success object; no request leaves the browser and no failure path is
reachable (the try block contains no failing operation). -/
def handlePublish (dataModules : List DataModule) (currentDataModule : Option DataModule)
    (icns : List ICN) (config : PublishConfig) : PublishResult :=
  let modulesToPublish :=
    if config.scope = "all-green" then
      dataModules.filter (fun dm => dm.validation_status == "green")
    else if config.scope = "current" then
      match currentDataModule with
      | some m => [m]
      | none => []
    else dataModules
  { success := true
    modulesPublished := modulesToPublish.length
    illustrationsIncluded := if config.includeIllustrations then icns.length else 0
    formats := config.formats
    variants := config.variants
    packageSize := "45.2 MB"
    downloadUrl := "/download/publication-package.zip" }

/-- The module count the specification's scope rule prescribes: green modules
for "all-green", the selected module (if any) for "current", all modules
otherwise. -/
def scopeExpectedCount (dataModules : List DataModule)
    (currentDataModule : Option DataModule) (scope : String) : Nat :=
  if scope = "all-green" then
    (dataModules.filter (fun dm => dm.validation_status == "green")).length
  else if scope = "current" then
    match currentDataModule with
    | some _ => 1
    | none => 0
  else dataModules.length

/-- JS String.prototype.includes, via list infix containment on the character
data. -/
def includesSubstr (s pat : String) : Bool :=
  decide (pat.data <:+: s.data)

/-- ASCII case folding of a character (the error strings compared by the
frontend are ASCII, so this models JS toLowerCase on them). -/
def charLower (c : Char) : Char :=
  if 'A' ≤ c ∧ c ≤ 'Z' then Char.ofNat (c.toNat + 32) else c

/-- ASCII lowering of a string, modelling JS String.prototype.toLowerCase. -/
def lowerStr (s : String) : String := ⟨s.data.map charLower⟩

/-- Embedded from src/frontend/src/components/DocumentViewer.js lines 356-396
(DataModuleViewer error list): every error row offers the "manual" fix radio;
the "ai" radio is rendered only when the lowercased error text contains
"content". -/
def availableCorrectionMethods (error : String) : List String :=
  if includesSubstr (lowerStr error) "content" then ["manual", "ai"] else ["manual"]

/-- Duplicate removal keeping the first occurrence of each element, matching
the iteration order of a JS Set built from Object.values of an index-keyed
selection map. -/
def firstDedup (l : List String) : List String :=
  match l with
  | [] => []
  | m :: ms => m :: firstDedup (ms.filter (fun x => x != m))
termination_by l.length
decreasing_by
  simp only [List.length_cons]
  have h := List.length_filter_le (fun x => x != m) ms
  omega

/-- A request the correction flow issues against the backend. -/
inductive CorrectionAction where
  | fixRequest (dmc method : String)
  | moduleUpdate (dmc : String)
  deriving Repr, DecidableEq

/-- Embedded from src/frontend/src/components/DocumentViewer.js lines 280-298
(applyCorrections): one POST /api/fix-module/dmc?method=m per distinct selected
method (the methods Set), followed by the module update call that refreshes and
re-validates the module. -/
def applyCorrections (dmc : String) (selections : List (Nat × String)) :
    List CorrectionAction :=
  (firstDedup (selections.map Prod.snd)).map (fun m => CorrectionAction.fixRequest dmc m)
    ++ [CorrectionAction.moduleUpdate dmc]

/-- The selectability half of the claim as stated: every validation error can
be assigned either the "manual" or the "ai" correction method. -/
def claimC6Selectable : Prop :=
  ∀ e : String, "manual" ∈ availableCorrectionMethods e ∧
    "ai" ∈ availableCorrectionMethods e

theorem firstDedup_mem (m : String) (l : List String) :
    m ∈ firstDedup l ↔ m ∈ l := by
  induction l using firstDedup.induct with
  | case1 => simp [firstDedup]
  | case2 a ms ih =>
    rw [firstDedup]
    simp only [List.mem_cons, ih, List.mem_filter]
    constructor
    · rintro (rfl | ⟨h1, _⟩)
      · exact Or.inl rfl
      · exact Or.inr h1
    · rintro (rfl | h1)
      · exact Or.inl rfl
      · by_cases hm : m = a
        · exact Or.inl hm
        · exact Or.inr ⟨h1, by simp [bne, hm]⟩

theorem firstDedup_nodup (l : List String) : (firstDedup l).Nodup := by
  induction l using firstDedup.induct with
  | case1 => simp [firstDedup]
  | case2 a ms ih =>
    rw [firstDedup]
    refine List.nodup_cons.mpr ⟨?_, ih⟩
    intro hmem
    have := (firstDedup_mem a (ms.filter (fun x => x != a))).mp hmem
    simp [List.mem_filter, bne] at this

theorem statusCount_pos (ms : List DataModule) (s : String) :
    0 < statusCount ms s ↔ ms.any (fun m => m.validation_status == s) = true := by
  simp [statusCount, List.length_pos, List.filter_eq_nil_iff, List.any_eq_true]

/-- Claim C9: for every list of data modules, calculateGlobalLEDStatus is
"red" when at least one module is red, otherwise "amber" when at least one is
amber, otherwise "blue" when at least one is blue, otherwise "green"; in
particular the empty list yields "green". -/
theorem c9_calculateGlobalLEDStatus_spec (modules : List DataModule) :
    calculateGlobalLEDStatus modules =
      (if modules.any (fun m => m.validation_status == "red") then "red"
       else if modules.any (fun m => m.validation_status == "amber") then "amber"
       else if modules.any (fun m => m.validation_status == "blue") then "blue"
       else "green")
    ∧ calculateGlobalLEDStatus [] = "green" := by
  constructor
  · simp only [calculateGlobalLEDStatus, gt_iff_lt, statusCount_pos]
  · rfl

/-- Claim C8: with at least one variant and one format selected, handlePublish
always succeeds, publishes exactly the modules selected by the scope filter,
and reports the canned package size and download URL; it is a pure function of
the client state, so no backend call is involved and no failure is possible. -/
theorem c8_handlePublish_stub (dataModules : List DataModule)
    (currentDataModule : Option DataModule) (icns : List ICN) (config : PublishConfig)
    (hv : config.variants ≠ []) (hf : config.formats ≠ []) :
    (handlePublish dataModules currentDataModule icns config).success = true ∧
    (handlePublish dataModules currentDataModule icns config).modulesPublished =
      scopeExpectedCount dataModules currentDataModule config.scope ∧
    (handlePublish dataModules currentDataModule icns config).packageSize = "45.2 MB" ∧
    (handlePublish dataModules currentDataModule icns config).downloadUrl =
      "/download/publication-package.zip" := by
  refine ⟨rfl, ?_, rfl, rfl⟩
  simp only [handlePublish, scopeExpectedCount]
  by_cases h1 : config.scope = "all-green"
  · simp [h1]
  · by_cases h2 : config.scope = "current"
    · cases currentDataModule <;> simp [h1, h2]
    · simp [h1, h2]

/-- Witness for C8 at a concrete publish invocation. -/
theorem c8_handlePublish_stub_witness :
    (["verbatim"] : List String) ≠ [] ∧ (["xml"] : List String) ≠ [] ∧
    (handlePublish [] none [] ⟨["verbatim"], ["xml"], "all", true⟩).success = true ∧
    (handlePublish [] none [] ⟨["verbatim"], ["xml"], "all", true⟩).modulesPublished =
      scopeExpectedCount [] none "all" ∧
    (handlePublish [] none [] ⟨["verbatim"], ["xml"], "all", true⟩).packageSize = "45.2 MB" ∧
    (handlePublish [] none [] ⟨["verbatim"], ["xml"], "all", true⟩).downloadUrl =
      "/download/publication-package.zip" :=
  ⟨by simp, by simp,
    c8_handlePublish_stub [] none [] ⟨["verbatim"], ["xml"], "all", true⟩
      (by simp) (by simp)⟩

/-- Counterexample for claim C6 as stated: the error string "Title is
required" (produced for a missing title) offers only the "manual" correction
method, because its lowercase form does not contain "content", so not every
error can be assigned an "ai" correction. -/
theorem c6_counterexample : ¬ claimC6Selectable := by
  intro h
  have h2 := (h "Title is required").2
  rw [show availableCorrectionMethods "Title is required" = ["manual"] from by decide] at h2
  simp at h2

/-- Claim C6 (amended): every validation error can be assigned the "manual"
method; the "ai" method is available exactly for errors whose lowercased text
contains "content"; applying the corrections issues one fix request per
distinct selected method (first-occurrence order, no duplicates) and finishes
with the module update that re-runs validation. -/
theorem c6_corrections_amended :
    (∀ e : String, "manual" ∈ availableCorrectionMethods e) ∧
    (∀ e : String, ("ai" ∈ availableCorrectionMethods e ↔
        includesSubstr (lowerStr e) "content" = true)) ∧
    (∀ (dmc : String) (sels : List (Nat × String)) (m : String),
        CorrectionAction.fixRequest dmc m ∈ applyCorrections dmc sels ↔
          m ∈ sels.map Prod.snd) ∧
    (∀ (dmc : String) (sels : List (Nat × String)),
        (firstDedup (sels.map Prod.snd)).Nodup ∧
        (applyCorrections dmc sels).getLast? =
          some (CorrectionAction.moduleUpdate dmc)) := by
  refine ⟨?_, ?_, ?_, ?_⟩
  · intro e
    by_cases h : includesSubstr (lowerStr e) "content" = true <;>
      simp [availableCorrectionMethods, h]
  · intro e
    by_cases h : includesSubstr (lowerStr e) "content" = true <;>
      simp [availableCorrectionMethods, h]
  · intro dmc sels m
    unfold applyCorrections
    constructor
    · intro hmem
      rcases List.mem_append.mp hmem with hin | hin
      · rcases List.mem_map.mp hin with ⟨a, ha, heq⟩
        have ham : a = m := by injection heq
        subst ham
        exact (firstDedup_mem a (sels.map Prod.snd)).mp ha
      · exact absurd (List.mem_singleton.mp hin) (by simp)
    · intro hm
      exact List.mem_append.mpr
        (Or.inl (List.mem_map.mpr ⟨m, (firstDedup_mem m (sels.map Prod.snd)).mpr hm, rfl⟩))
  · intro dmc sels
    refine ⟨firstDedup_nodup _, ?_⟩
    simp [applyCorrections]

/-- Modelled from the spec: the operational-structure default the user selects
before processing (Water, Air, Land or Other), section 4.2 and the Document
Processing Workflow; the backend that consumes it is not in the source tree. -/
inductive OpStructure where
  | water
  | air
  | land
  | other
  deriving Repr, DecidableEq

/-- Modelled from the spec: the domain segment contributed by the selected
operational structure. -/
def opStructureCode : OpStructure → String
  | .water => "W"
  | .air => "A"
  | .land => "L"
  | .other => "O"

/-- Modelled from the spec: the classification result a text provider returns,
with dm_type optional because unreliable AI output may omit it (section 4.2). -/
structure Classification where
  dm_type : Option String
  title : String
  subsystem : Option String
  confidence : ℚ
  deriving Repr, DecidableEq

/-- Modelled from the spec: the code segment for a dm_type from the data-model
enum, with a generic segment for unknown types. -/
def dmTypeCode (t : String) : String :=
  if t = "procedural" then "PR"
  else if t = "descriptive" then "DE"
  else if t = "illustrated-parts" then "IP"
  else if t = "circuit" then "CI"
  else if t = "fault" then "FA"
  else if t = "wiring" then "WI"
  else "GE"

/-- Modelled from the spec: Identifier Assignment (section 4.2), a pure
function from the user defaults, the classification and the info variant to
the segments of the Data Module Code; fails with IncompleteClassification
when dm_type cannot be derived.  The variant is the final segment. -/
def assign (defaults : OpStructure) (c : Classification) (variant : String) :
    Except String (List String) :=
  match c.dm_type with
  | none => Except.error "IncompleteClassification"
  | some t =>
    Except.ok ["DMC", opStructureCode defaults, c.subsystem.getD "00", dmTypeCode t, variant]

/-- Claim C3: identifier assignment is pure (identical inputs give identical
codes) and for a valid classification the "00" and "01" codes agree on every
segment except the final variant segment. -/
theorem c3_assign_variant_segment (defaults : OpStructure) (c : Classification)
    (t : String) (h : c.dm_type = some t) :
    (∀ v : String, assign defaults c v = assign defaults c v) ∧
    ∃ s00 s01 : List String,
      assign defaults c "00" = Except.ok s00 ∧
      assign defaults c "01" = Except.ok s01 ∧
      s00.length = 5 ∧ s01.length = 5 ∧
      (∀ i : Nat, i < 4 → s00.get? i = s01.get? i) ∧
      s00.get? 4 = some "00" ∧ s01.get? 4 = some "01" := by
  refine ⟨fun _ => rfl, ?_⟩
  refine ⟨["DMC", opStructureCode defaults, c.subsystem.getD "00", dmTypeCode t, "00"],
          ["DMC", opStructureCode defaults, c.subsystem.getD "00", dmTypeCode t, "01"],
          by simp [assign, h], by simp [assign, h], rfl, rfl, ?_, rfl, rfl⟩
  intro i hi
  interval_cases i <;> rfl

/-- Witness for C3 at the scenario classification from the spec's test
properties. -/
theorem c3_assign_variant_segment_witness :
    (Classification.mk (some "procedural") "Engine Start Procedure" none (9/10)).dm_type =
      some "procedural" ∧
    ((∀ v : String,
        assign OpStructure.air
          (Classification.mk (some "procedural") "Engine Start Procedure" none (9/10)) v =
        assign OpStructure.air
          (Classification.mk (some "procedural") "Engine Start Procedure" none (9/10)) v) ∧
      ∃ s00 s01 : List String,
        assign OpStructure.air
          (Classification.mk (some "procedural") "Engine Start Procedure" none (9/10)) "00" =
          Except.ok s00 ∧
        assign OpStructure.air
          (Classification.mk (some "procedural") "Engine Start Procedure" none (9/10)) "01" =
          Except.ok s01 ∧
        s00.length = 5 ∧ s01.length = 5 ∧
        (∀ i : Nat, i < 4 → s00.get? i = s01.get? i) ∧
        s00.get? 4 = some "00" ∧ s01.get? 4 = some "01") :=
  ⟨rfl, c3_assign_variant_segment OpStructure.air
    (Classification.mk (some "procedural") "Engine Start Procedure" none (9/10))
    "procedural" rfl⟩

/-- The string form of a segment list, joined with dashes as a Data Module
Code. -/
def segsJoin (segs : List String) : String := String.intercalate "-" segs

/-- Modelled from the spec: the generic fallback code used when classification
is incomplete, so the pipeline does not block on unreliable AI output
(section 4.2). -/
def fallbackCode (defaults : OpStructure) (variant : String) : String :=
  segsJoin ["DMC", opStructureCode defaults, "00", "GE", variant]

/-- The code the pipeline uses: the assigned code, or the fallback on an
incomplete classification. -/
def buildCode (defaults : OpStructure) (c : Classification) (variant : String) : String :=
  match assign defaults c variant with
  | Except.ok segs => segsJoin segs
  | Except.error _ => fallbackCode defaults variant

/-- Outcome of one conversion-pipeline run on one document. -/
structure PipelineResult where
  processing_status : String
  modules : List DataModule
  processing_logs : List String
  deriving Repr

/-- Modelled from the spec: the Conversion Pipeline (section 4.4), as a pure
function of the outcomes of its external calls (extraction, classify,
rewrite_ste).  Extraction or classification failure aborts with status
"failed" and no modules; after a successful classification the verbatim
module is persisted with status "blue"; a rewrite failure is logged and
leaves the verbatim module with status "completed"; on rewrite success the
simplified module is persisted as well.  The modules listed are in their
as-created state, before the validation engine runs on them (step 7). -/
def runPipeline (docId : String) (defaults : OpStructure)
    (extractR : Except String String)
    (classifyR : Except String Classification)
    (rewriteR : Except String (String × ℚ)) : PipelineResult :=
  match extractR with
  | Except.error e => ⟨"failed", [], ["ExtractionFailed: " ++ e]⟩
  | Except.ok text =>
    match classifyR with
    | Except.error e => ⟨"failed", [], ["classification failed: " ++ e]⟩
    | Except.ok c =>
      let dm1 : DataModule :=
        { dmc := buildCode defaults c "00"
          title := c.title
          dm_type := c.dm_type.getD "general"
          info_variant := "00"
          content := text
          source_document_id := docId
          validation_status := "blue"
          validation_errors := []
          ste_score := none }
      match rewriteR with
      | Except.error e =>
        ⟨"completed", [dm1], ["rewrite_ste failed, kept verbatim module: " ++ e]⟩
      | Except.ok (steText, score) =>
        let dm2 : DataModule :=
          { dm1 with
              dmc := buildCode defaults c "01"
              info_variant := "01"
              content := steText
              ste_score := some score }
        ⟨"completed", [dm1, dm2], []⟩

/-- Claim C1: when classification succeeded and rewrite_ste failed, the run
yields exactly one DataModule for the source document, its info_variant is
"00", and the document finishes "completed", not "failed". -/
theorem c1_rewrite_failure_keeps_verbatim (docId : String) (defaults : OpStructure)
    (text : String) (c : Classification) (e : String) :
    (runPipeline docId defaults (Except.ok text) (Except.ok c) (Except.error e)).processing_status
        = "completed" ∧
    (runPipeline docId defaults (Except.ok text) (Except.ok c) (Except.error e)).processing_status
        ≠ "failed" ∧
    (runPipeline docId defaults (Except.ok text) (Except.ok c) (Except.error e)).modules.map
        (fun dm => dm.info_variant) = ["00"] ∧
    (runPipeline docId defaults (Except.ok text) (Except.ok c) (Except.error e)).modules.map
        (fun dm => dm.source_document_id) = [docId] := by
  refine ⟨rfl, by simp [runPipeline], rfl, rfl⟩

/-- Claim C2 as stated: every run that encounters a provider failure (a failed
classification after successful extraction, or a failed rewrite after a
successful classification) ends with the document "failed", a logged error,
and either no module or both variants. -/
def claimC2 : Prop :=
  ∀ (docId : String) (defaults : OpStructure) (text : String)
    (classifyR : Except String Classification)
    (rewriteR : Except String (String × ℚ)),
    ((∃ e, classifyR = Except.error e) ∨
      ((∃ c, classifyR = Except.ok c) ∧ ∃ e, rewriteR = Except.error e)) →
    (runPipeline docId defaults (Except.ok text) classifyR rewriteR).processing_status
        = "failed" ∧
    (runPipeline docId defaults (Except.ok text) classifyR rewriteR).processing_logs ≠ [] ∧
    ((runPipeline docId defaults (Except.ok text) classifyR rewriteR).modules.length = 0 ∨
      (runPipeline docId defaults (Except.ok text) classifyR rewriteR).modules.length = 2)

/-- Counterexample for claim C2 as stated: a rewrite_ste provider failure
after a successful classification leaves the document "completed" (not
"failed") with exactly one module, the verbatim variant. -/
theorem c2_counterexample : ¬ claimC2 := by
  intro h
  have hc := h "doc1" OpStructure.air "some text"
    (Except.ok (Classification.mk (some "procedural") "T" none 1))
    (Except.error "ProviderUnavailable")
    (Or.inr ⟨⟨_, rfl⟩, ⟨_, rfl⟩⟩)
  have := hc.1
  simp [runPipeline] at this

/-- Claim C2 (amended): a classification provider failure marks the document
"failed" with the error logged and no DataModule created, while a rewrite_ste
provider failure is a partial success: the document is "completed" with the
error logged and exactly the verbatim "00" module existing. -/
theorem c2_provider_failure_amended (docId : String) (defaults : OpStructure)
    (text : String) :
    (∀ (e : String) (rewriteR : Except String (String × ℚ)),
      (runPipeline docId defaults (Except.ok text) (Except.error e) rewriteR).processing_status
          = "failed" ∧
      (runPipeline docId defaults (Except.ok text) (Except.error e) rewriteR).processing_logs
          ≠ [] ∧
      (runPipeline docId defaults (Except.ok text) (Except.error e) rewriteR).modules = []) ∧
    (∀ (c : Classification) (e : String),
      (runPipeline docId defaults (Except.ok text) (Except.ok c) (Except.error e)).processing_status
          = "completed" ∧
      (runPipeline docId defaults (Except.ok text) (Except.ok c) (Except.error e)).processing_logs
          ≠ [] ∧
      (runPipeline docId defaults (Except.ok text) (Except.ok c) (Except.error e)).modules.map
          (fun dm => dm.info_variant) = ["00"]) := by
  constructor
  · intro e rewriteR
    refine ⟨rfl, by simp [runPipeline], rfl⟩
  · intro c e
    refine ⟨rfl, by simp [runPipeline], rfl⟩

/-- Severity of a rule outcome: a warning or a hard failure (section 4.3). -/
inductive Severity where
  | warn
  | hard
  deriving Repr, DecidableEq

/-- The externally configurable BREX rule parameters, flattened from the
nested groups of the source's rule object (title, dmc, content,
illustrations, tables, references, security, ste). -/
structure BrexRules where
  titleRequired : Bool
  titleMaxLength : Nat
  titlePattern : String
  dmcRequired : Bool
  dmcPattern : String
  contentRequired : Bool
  contentMinLength : Nat
  contentMaxLength : Nat
  illustrationsMaxCount : Nat
  illustrationsAllowedFormats : List String
  tablesMaxColumns : Nat
  tablesMaxRows : Nat
  referencesValidateDMRefs : Bool
  referencesValidateICNRefs : Bool
  referencesAllowBrokenRefs : Bool
  securityAllowedClassifications : List String
  securityRequireWatermark : Bool
  steMinScore : ℚ
  steWarnBelowScore : ℚ
  deriving Repr, DecidableEq

/-- Embedded from src/unnamed/part_002 lines 119-155 (getDefaultBREXRules in
the BREX designer): the default rule parameters, in particular the STE
minimum score 0.85 and warning threshold 0.90. -/
def getDefaultBREXRules : BrexRules :=
  { titleRequired := true
    titleMaxLength := 100
    titlePattern := "^[A-Za-z0-9\\s\\-_]+$"
    dmcRequired := true
    dmcPattern := "^DMC-[A-Z0-9\\-]+$"
    contentRequired := true
    contentMinLength := 10
    contentMaxLength := 50000
    illustrationsMaxCount := 50
    illustrationsAllowedFormats := ["jpg", "jpeg", "png", "gif", "svg"]
    tablesMaxColumns := 20
    tablesMaxRows := 200
    referencesValidateDMRefs := true
    referencesValidateICNRefs := true
    referencesAllowBrokenRefs := false
    securityAllowedClassifications := ["UNCLASSIFIED", "CONFIDENTIAL", "SECRET"]
    securityRequireWatermark := false
    steMinScore := 85/100
    steWarnBelowScore := 90/100 }

/-- A character allowed by the default title pattern [A-Za-z0-9\s\-_]. -/
def titlePatternChar (c : Char) : Bool :=
  ('A' ≤ c && c ≤ 'Z') || ('a' ≤ c && c ≤ 'z') || ('0' ≤ c && c ≤ '9') ||
    c.isWhitespace || c == '-' || c == '_'

/-- Whether a title matches the default pattern ^[A-Za-z0-9\s\-_]+$. -/
def matchTitlePattern (s : String) : Bool :=
  s != "" && s.data.all titlePatternChar

/-- A character allowed in the code part of the default DMC pattern. -/
def dmcPatternChar (c : Char) : Bool :=
  ('A' ≤ c && c ≤ 'Z') || ('0' ≤ c && c ≤ '9') || c == '-'

/-- Whether a code matches the default pattern ^DMC-[A-Z0-9\-]+$. -/
def matchDmcPattern (s : String) : Bool :=
  "DMC-".isPrefixOf s && (s.drop 4) != "" && (s.drop 4).data.all dmcPatternChar

/-- Modelled from the spec: the Validation Engine's rule evaluation
(section 4.3): every rule runs unconditionally and contributes its severity
and human-readable message; the STE thresholds apply only to "01" variants,
with a hard failure below the minimum and a warning between the minimum and
the warn threshold. -/
def collectErrors (rules : BrexRules) (m : DataModule) : List (Severity × String) :=
  (if rules.titleRequired && (m.title == "") then
      [(Severity.hard, "Title is required")] else [])
  ++ (if rules.titleMaxLength < m.title.length then
      [(Severity.hard, "Title exceeds maximum length")] else [])
  ++ (if !(matchTitlePattern m.title) then
      [(Severity.hard, "Title does not match required pattern")] else [])
  ++ (if rules.dmcRequired && (m.dmc == "") then
      [(Severity.hard, "DMC is required")] else [])
  ++ (if !(matchDmcPattern m.dmc) then
      [(Severity.hard, "DMC does not match required pattern")] else [])
  ++ (if rules.contentRequired && (m.content == "") then
      [(Severity.hard, "Content is required")] else [])
  ++ (if m.content.length < rules.contentMinLength then
      [(Severity.hard, "Content is too short")] else [])
  ++ (if rules.contentMaxLength < m.content.length then
      [(Severity.hard, "Content is too long")] else [])
  ++ (if m.info_variant == "01" then
        match m.ste_score with
        | none => [(Severity.hard, "STE score is missing")]
        | some sc =>
          if sc < rules.steMinScore then [(Severity.hard, "STE score below minimum")]
          else if sc < rules.steWarnBelowScore then
            [(Severity.warn, "STE score below warning threshold")]
          else []
      else [])

/-- Modelled from the spec: severity aggregation (section 4.3): any hard
failure gives red, otherwise any warning gives amber, otherwise green; the
engine never produces the never-validated status "blue". -/
def validationStatusOf (errs : List (Severity × String)) : String :=
  if errs.any (fun e => e.1 == Severity.hard) then "red"
  else if 0 < errs.length then "amber"
  else "green"

/-- Modelled from the spec: one validation run updates only the validation
fields of the module from the collected rule outcomes. -/
def validateModule (rules : BrexRules) (m : DataModule) : DataModule :=
  { m with
      validation_status := validationStatusOf (collectErrors rules m)
      validation_errors := (collectErrors rules m).map Prod.snd }

/-- Claim C7: validation is a pure function of module content and rule set;
re-running it on the already-validated, unmodified module reproduces the same
status and the same ordered error list (full idempotence). -/
theorem c7_validation_idempotent (rules : BrexRules) (m : DataModule) :
    validateModule rules (validateModule rules m) = validateModule rules m := rfl

/-- Claim C5: every DataModule the conversion pipeline persists is created
with validation_status "blue", and "blue" is distinct from every status the
validation engine can produce. -/
theorem c5_created_blue (docId : String) (defaults : OpStructure)
    (extractR : Except String String) (classifyR : Except String Classification)
    (rewriteR : Except String (String × ℚ)) :
    (runPipeline docId defaults extractR classifyR rewriteR).modules.all
        (fun dm => dm.validation_status == "blue") = true ∧
    ∀ errs : List (Severity × String), validationStatusOf errs ≠ "blue" := by
  constructor
  · cases extractR with
    | error e => rfl
    | ok text =>
      cases classifyR with
      | error e => rfl
      | ok c =>
        cases rewriteR with
        | error e => rfl
        | ok r => rfl
  · intro errs
    unfold validationStatusOf
    split
    · simp
    · split <;> simp

/-- Claim C4: for a "01" variant, an STE score strictly below the rule set's
minimum forces status "red" regardless of every other rule outcome, and a
score at or above the minimum but below the warn threshold forces a status
that is at most "amber" (amber or red, never green); the default thresholds
are 0.85 and 0.90. -/
theorem c4_ste_thresholds (rules : BrexRules) (m : DataModule) (sc : ℚ)
    (hv : m.info_variant = "01") (hs : m.ste_score = some sc) :
    (getDefaultBREXRules.steMinScore = 85/100 ∧
      getDefaultBREXRules.steWarnBelowScore = 90/100) ∧
    (sc < rules.steMinScore → (validateModule rules m).validation_status = "red") ∧
    (rules.steMinScore ≤ sc → sc < rules.steWarnBelowScore →
      ((validateModule rules m).validation_status = "amber" ∨
        (validateModule rules m).validation_status = "red")) := by
  refine ⟨⟨rfl, rfl⟩, ?_, ?_⟩
  · intro hlt
    simp [validateModule, validationStatusOf, collectErrors, hv, hs, hlt, List.any_append]
  · intro hge hlt
    have hnlt : ¬ sc < rules.steMinScore := not_lt.mpr hge
    have hmem : (Severity.warn, "STE score below warning threshold") ∈ collectErrors rules m := by
      simp [collectErrors, hv, hs, hnlt, hlt]
    simp only [validateModule]
    unfold validationStatusOf
    by_cases hA : (collectErrors rules m).any (fun e => e.1 == Severity.hard) = true
    · simp [hA]
    · have hlen : 0 < (collectErrors rules m).length :=
        List.length_pos.mpr (List.ne_nil_of_mem hmem)
      simp [hA, hlen]

/-- Concrete "01" module whose STE score sits below the default minimum. -/
def demoLowModule : DataModule :=
  ⟨"DMC-A-00-PR-01", "Engine Start Procedure", "procedural", "01",
    "Some procedure content", "doc1", "blue", [], some (1/2)⟩

/-- Concrete "01" module whose STE score sits between the default minimum and
the default warn threshold. -/
def demoMidModule : DataModule :=
  ⟨"DMC-A-00-PR-01", "Engine Start Procedure", "procedural", "01",
    "Some procedure content", "doc1", "blue", [], some (87/100)⟩

theorem demo_low_lt_min : ((1:ℚ)/2) < getDefaultBREXRules.steMinScore := by
  norm_num [getDefaultBREXRules]

theorem demo_mid_ge_min : getDefaultBREXRules.steMinScore ≤ 87/100 := by
  norm_num [getDefaultBREXRules]

theorem demo_mid_lt_warn : ((87:ℚ)/100) < getDefaultBREXRules.steWarnBelowScore := by
  norm_num [getDefaultBREXRules]

/-- Witness for C4 on concrete modules under the default rule set. -/
theorem c4_ste_thresholds_witness :
    demoLowModule.info_variant = "01" ∧ demoLowModule.ste_score = some (1/2) ∧
    ((1:ℚ)/2) < getDefaultBREXRules.steMinScore ∧
    (validateModule getDefaultBREXRules demoLowModule).validation_status = "red" ∧
    demoMidModule.info_variant = "01" ∧ demoMidModule.ste_score = some (87/100) ∧
    getDefaultBREXRules.steMinScore ≤ 87/100 ∧
    ((87:ℚ)/100) < getDefaultBREXRules.steWarnBelowScore ∧
    ((validateModule getDefaultBREXRules demoMidModule).validation_status = "amber" ∨
      (validateModule getDefaultBREXRules demoMidModule).validation_status = "red") :=
  ⟨rfl, rfl, demo_low_lt_min,
    (c4_ste_thresholds getDefaultBREXRules demoLowModule (1/2) rfl rfl).2.1 demo_low_lt_min,
    rfl, rfl, demo_mid_ge_min, demo_mid_lt_warn,
    (c4_ste_thresholds getDefaultBREXRules demoMidModule (87/100) rfl rfl).2.2
      demo_mid_ge_min demo_mid_lt_warn⟩


/-- Character-list strings, the representation over which the editor's
regex-based transforms are modelled. -/
abbrev Str := List Char

/-- JS String.prototype.replace with a global literal pattern (such as
/<para>/g): scan left to right, replace each occurrence, and continue after
the replacement text, which is never rescanned. -/
def replaceAllStr (pat repl : Str) (s : Str) : Str :=
  match s with
  | [] => []
  | c :: cs =>
    if h : pat ≠ [] ∧ pat <+: (c :: cs) then
      repl ++ replaceAllStr pat repl ((c :: cs).drop pat.length)
    else
      c :: replaceAllStr pat repl cs
termination_by s.length
decreasing_by
  · have hlen : 0 < pat.length := List.length_pos.mpr h.1
    simp only [List.length_drop, List.length_cons]
    omega
  · simp only [List.length_cons]
    omega

/-- Split a string at the first occurrence of a pattern: splitFirst pat s is
some (a, b) when s = a ++ pat ++ b and the occurrence shown is the leftmost,
none when pat does not occur. -/
def splitFirst (pat : Str) (s : Str) : Option (Str × Str) :=
  match s with
  | [] => if pat = [] then some ([], []) else none
  | c :: cs =>
    if pat <+: (c :: cs) then some ([], (c :: cs).drop pat.length)
    else
      match splitFirst pat cs with
      | some (a, b) => some (c :: a, b)
      | none => none

theorem splitFirst_append_eq (pat : Str) (s a b : Str)
    (h : splitFirst pat s = some (a, b)) : s = a ++ pat ++ b := by
  induction s generalizing a b with
  | nil =>
    by_cases hp : pat = [] <;> simp [splitFirst, hp] at h
    obtain ⟨ha, hb⟩ := h
    subst ha
    subst hb
    simp [hp]
  | cons c cs ih =>
    rw [splitFirst] at h
    by_cases hp : pat <+: (c :: cs)
    · rw [if_pos hp] at h
      simp only [Option.some.injEq, Prod.mk.injEq] at h
      obtain ⟨ha, hb⟩ := h
      obtain ⟨t, ht⟩ := hp
      rw [← ha, ← hb, ← ht]
      simp [List.drop_left]
    · rw [if_neg hp] at h
      cases hsp : splitFirst pat cs with
      | none => rw [hsp] at h; cases h
      | some p =>
        rw [hsp] at h
        cases p with
        | mk a' b' =>
          simp at h
          obtain ⟨h1, h2⟩ := h
          rw [← h1, ← h2]
          simp [ih a' b' hsp]

theorem splitFirst_some_length (pat : Str) (s a b : Str)
    (h : splitFirst pat s = some (a, b)) :
    s.length = a.length + pat.length + b.length := by
  have := splitFirst_append_eq pat s a b h
  subst this
  simp
  omega

/-- JS String.prototype.replace with a global non-greedy tag-pair regex such
as /<warning>(.*?)<\/warning>/g: leftmost match, shortest content, scanning
resumes after the replaced text.  Faithful on newline-free input (the regex
dot does not match newlines, and the round-trip claim is restricted to
single-line strings). -/
def replaceTag (openT closeT pre post : Str) (s : Str) : Str :=
  match s with
  | [] => []
  | c :: cs =>
    if h : openT ≠ [] ∧ openT <+: (c :: cs) then
      match hsp : splitFirst closeT ((c :: cs).drop openT.length) with
      | some (content, rest) =>
        pre ++ content ++ post ++ replaceTag openT closeT pre post rest
      | none => c :: cs
    else
      c :: replaceTag openT closeT pre post cs
termination_by s.length
decreasing_by
  · have hlen : 0 < openT.length := List.length_pos.mpr h.1
    have hle : openT.length ≤ (c :: cs).length := h.2.length_le
    have hsl := splitFirst_some_length closeT _ content rest hsp
    simp only [List.length_drop, List.length_cons] at hsl ⊢
    omega
  · simp only [List.length_cons]
    omega

theorem replaceAllStr_nil (pat repl : Str) : replaceAllStr pat repl [] = [] := by
  rw [replaceAllStr]

theorem replaceAllStr_cons (pat repl : Str) (c : Char) (cs : Str) :
    replaceAllStr pat repl (c :: cs) =
      if pat ≠ [] ∧ pat <+: (c :: cs) then
        repl ++ replaceAllStr pat repl ((c :: cs).drop pat.length)
      else c :: replaceAllStr pat repl cs := by
  rw [replaceAllStr]
  split <;> rfl

theorem replaceAllStr_cons_neg (pat repl : Str) (c : Char) (cs : Str)
    (h : ¬ pat <+: (c :: cs)) :
    replaceAllStr pat repl (c :: cs) = c :: replaceAllStr pat repl cs := by
  rw [replaceAllStr_cons, if_neg]
  rintro ⟨-, hp⟩
  exact h hp

theorem replaceAllStr_head_ne (pat repl : Str) (c : Char) (cs : Str)
    (h : pat.head? ≠ some c) :
    replaceAllStr pat repl (c :: cs) = c :: replaceAllStr pat repl cs := by
  rw [replaceAllStr_cons, if_neg]
  rintro ⟨hne, hp⟩
  cases pat with
  | nil => exact hne rfl
  | cons p pt =>
    have := (List.cons_prefix_cons.mp hp).1
    exact h (by rw [this]; rfl)

theorem replaceAllStr_text (pat repl t rest : Str)
    (h : ∀ ch ∈ t, pat.head? ≠ some ch) :
    replaceAllStr pat repl (t ++ rest) = t ++ replaceAllStr pat repl rest := by
  induction t with
  | nil => rfl
  | cons c t ih =>
    rw [List.cons_append, replaceAllStr_head_ne pat repl c _ (h c (List.mem_cons_self c t))]
    rw [ih (fun ch hch => h ch (List.mem_cons_of_mem c hch))]
    rfl

theorem replaceAllStr_match (pat repl rest : Str) (h : pat ≠ []) :
    replaceAllStr pat repl (pat ++ rest) = repl ++ replaceAllStr pat repl rest := by
  cases hp : pat with
  | nil => exact absurd hp h
  | cons p pt =>
    rw [List.cons_append, replaceAllStr_cons, if_pos]
    · rw [← List.cons_append, ← hp]
      congr 2
      exact List.drop_left pat rest
    · refine ⟨by simp, ?_⟩
      rw [← List.cons_append, ← hp]
      exact List.prefix_append pat rest

/-- A markup token: an opening angle bracket followed by bracket-free text. -/
def TagLike (tag : Str) : Prop :=
  ∃ tv, tag = '<' :: tv ∧ ∀ c ∈ tv, c ≠ '<'

/-- The pattern pat can never match at a tag token, whatever follows it. -/
def Skips (pat tag : Str) : Prop :=
  TagLike tag ∧ ∀ rest, ¬ pat <+: (tag ++ rest)

def tagLikeB (tag : Str) : Bool :=
  match tag with
  | [] => false
  | c :: tv => c == '<' && tv.all (fun x => x != '<')

theorem tagLike_of_B (tag : Str) (h : tagLikeB tag = true) : TagLike tag := by
  cases tag with
  | nil => simp [tagLikeB] at h
  | cons c tv =>
    simp [tagLikeB, List.all_eq_true] at h
    exact ⟨tv, by rw [h.1], fun x hx => by simpa using h.2 x hx⟩

theorem not_prefix_of_take_mismatch (pat tag : Str) (k : Nat) (hkp : k ≤ pat.length)
    (hkt : k ≤ tag.length) (hne : pat.take k ≠ tag.take k) (rest : Str) :
    ¬ pat <+: (tag ++ rest) := by
  intro hp
  have h1 : pat.take k <+: tag ++ rest := (List.take_prefix k pat).trans hp
  have h2 : pat.take k = (tag ++ rest).take (pat.take k).length :=
    List.prefix_iff_eq_take.mp h1
  have hlen : (pat.take k).length = k := by
    simp [List.length_take]
    omega
  have h3 : (tag ++ rest).take k = tag.take k := by
    rw [List.take_append_eq_append_take]
    have hz : k - tag.length = 0 := Nat.sub_eq_zero_of_le hkt
    simp [hz]
  rw [hlen, h3] at h2
  exact hne h2

theorem skips_intro (pat tag : Str) (k : Nat) (h1 : tagLikeB tag = true)
    (hkp : k ≤ pat.length) (hkt : k ≤ tag.length)
    (hne : pat.take k ≠ tag.take k) : Skips pat tag :=
  ⟨tagLike_of_B tag h1,
    fun rest => not_prefix_of_take_mismatch pat tag k hkp hkt hne rest⟩

theorem replaceAllStr_skip (pat repl tag rest : Str) (hpat : pat.head? = some '<')
    (hsk : Skips pat tag) :
    replaceAllStr pat repl (tag ++ rest) = tag ++ replaceAllStr pat repl rest := by
  obtain ⟨⟨tv, rfl, htv⟩, hnp⟩ := hsk
  rw [List.cons_append, replaceAllStr_cons_neg pat repl '<' (tv ++ rest)
    (fun hp => hnp rest (by rw [List.cons_append]; exact hp))]
  rw [replaceAllStr_text pat repl tv rest
    (fun ch hch heq => htv ch hch (by rw [hpat] at heq; injection heq with h2; exact h2.symm))]
  rfl

theorem splitFirst_cons (pat : Str) (c : Char) (cs : Str) :
    splitFirst pat (c :: cs) =
      if pat <+: (c :: cs) then some ([], (c :: cs).drop pat.length)
      else
        match splitFirst pat cs with
        | some (a, b) => some (c :: a, b)
        | none => none := rfl

theorem splitFirst_cons_neg (pat : Str) (c : Char) (cs : Str)
    (h : ¬ pat <+: (c :: cs)) :
    splitFirst pat (c :: cs) = (splitFirst pat cs).map (fun p => (c :: p.1, p.2)) := by
  rw [splitFirst_cons, if_neg h]
  cases splitFirst pat cs with
  | none => rfl
  | some p => cases p; rfl

theorem splitFirst_head_ne (pat : Str) (c : Char) (cs : Str) (p0 : Char)
    (hp : pat.head? = some p0) (hne : p0 ≠ c) :
    splitFirst pat (c :: cs) = (splitFirst pat cs).map (fun p => (c :: p.1, p.2)) := by
  apply splitFirst_cons_neg
  intro hpre
  cases pat with
  | nil => cases hp
  | cons q qt =>
    have := (List.cons_prefix_cons.mp hpre).1
    injection hp with h2
    exact hne (by rw [← h2, this])

theorem splitFirst_text (pat t s : Str) (hp0 : pat ≠ [])
    (ht : ∀ ch ∈ t, pat.head? ≠ some ch) :
    splitFirst pat (t ++ s) = (splitFirst pat s).map (fun p => (t ++ p.1, p.2)) := by
  induction t with
  | nil =>
    cases hq : splitFirst pat s with
    | none => simp [hq]
    | some p => cases p; simp [hq]
  | cons c t ih =>
    rw [List.cons_append, splitFirst_cons_neg]
    · rw [ih (fun ch hch => ht ch (List.mem_cons_of_mem c hch))]
      cases hq : splitFirst pat s with
      | none => simp [hq]
      | some p => cases p; simp [hq]
    · intro hpre
      cases pat with
      | nil => exact hp0 rfl
      | cons q qt =>
        have := (List.cons_prefix_cons.mp hpre).1
        exact ht c (List.mem_cons_self c t) (by rw [this]; rfl)

theorem splitFirst_match (pat rest : Str) (h : pat ≠ []) :
    splitFirst pat (pat ++ rest) = some ([], rest) := by
  cases hp : pat with
  | nil => exact absurd hp h
  | cons p pt =>
    rw [List.cons_append, splitFirst_cons, if_pos]
    · rw [← List.cons_append, ← hp]
      congr 2
      exact List.drop_left pat rest
    · rw [← List.cons_append, ← hp]
      exact List.prefix_append pat rest

theorem splitFirst_skip (pat tag s : Str) (hpat : pat.head? = some '<')
    (hsk : Skips pat tag) :
    splitFirst pat (tag ++ s) = (splitFirst pat s).map (fun p => (tag ++ p.1, p.2)) := by
  obtain ⟨⟨tv, rfl, htv⟩, hnp⟩ := hsk
  rw [List.cons_append, splitFirst_cons_neg pat '<' (tv ++ s)
    (fun hp => hnp s (by rw [List.cons_append]; exact hp))]
  rw [splitFirst_text pat tv s (fun hnil => by rw [hnil] at hpat; cases hpat)
    (fun ch hch heq => htv ch hch (by rw [hpat] at heq; injection heq with h2; exact h2.symm))]
  cases splitFirst pat s with
  | none => rfl
  | some p => cases p; rfl

theorem replaceTag_nil (o c pre post : Str) : replaceTag o c pre post [] = [] := by
  rw [replaceTag]

theorem replaceTag_cons_neg (o c pre post : Str) (ch : Char) (cs : Str)
    (h : ¬ o <+: (ch :: cs)) :
    replaceTag o c pre post (ch :: cs) = ch :: replaceTag o c pre post cs := by
  rw [replaceTag]
  rw [dif_neg (fun hh => h hh.2)]

theorem replaceTag_head_ne (o c pre post : Str) (ch : Char) (cs : Str)
    (h : o.head? ≠ some ch) :
    replaceTag o c pre post (ch :: cs) = ch :: replaceTag o c pre post cs := by
  cases o with
  | nil =>
    rw [replaceTag]
    rw [dif_neg]
    rintro ⟨hne, -⟩
    exact hne rfl
  | cons q qt =>
    apply replaceTag_cons_neg
    intro hpre
    have := (List.cons_prefix_cons.mp hpre).1
    exact h (by rw [this]; rfl)

theorem replaceTag_text (o c pre post t rest : Str)
    (ht : ∀ ch ∈ t, o.head? ≠ some ch) :
    replaceTag o c pre post (t ++ rest) = t ++ replaceTag o c pre post rest := by
  induction t with
  | nil => rfl
  | cons x t ih =>
    rw [List.cons_append, replaceTag_head_ne o c pre post x _ (ht x (List.mem_cons_self x t))]
    rw [ih (fun ch hch => ht ch (List.mem_cons_of_mem x hch))]
    rfl

theorem replaceTag_skip (o c pre post tag rest : Str) (hpat : o.head? = some '<')
    (hsk : Skips o tag) :
    replaceTag o c pre post (tag ++ rest) = tag ++ replaceTag o c pre post rest := by
  obtain ⟨⟨tv, rfl, htv⟩, hnp⟩ := hsk
  rw [List.cons_append, replaceTag_cons_neg o c pre post '<' (tv ++ rest)
    (fun hp => hnp rest (by rw [List.cons_append]; exact hp))]
  rw [replaceTag_text o c pre post tv rest
    (fun ch hch heq => htv ch hch (by rw [hpat] at heq; injection heq with h2; exact h2.symm))]
  rfl

theorem replaceTag_match (o c pre post rest0 content rest : Str) (ho : o ≠ [])
    (hsp : splitFirst c rest0 = some (content, rest)) :
    replaceTag o c pre post (o ++ rest0) =
      pre ++ content ++ post ++ replaceTag o c pre post rest := by
  obtain ⟨p, pt, rfl⟩ := List.exists_cons_of_ne_nil ho
  rw [List.cons_append, replaceTag]
  rw [dif_pos ⟨(by simp : (p :: pt : Str) ≠ []),
    by rw [← List.cons_append]; exact List.prefix_append _ _⟩]
  have hdrop : ((p :: (pt ++ rest0) : Str)).drop (p :: pt : Str).length = rest0 := by
    rw [← List.cons_append]
    exact List.drop_left _ _
  split
  · rename_i content' rest' hx
    rw [hdrop, hsp] at hx
    injection hx with hx2
    injection hx2 with hx3 hx4
    rw [hx3, hx4]
  · rename_i hx
    rw [hdrop, hsp] at hx
    cases hx

/-- Content allowed inside a warning or caution element: character data and
para elements, since the claim excludes warning and caution nested inside
each other. -/
inductive InnerForest where
  | nil
  | textCons (t : Str) (rest : InnerForest)
  | paraCons (children : InnerForest) (rest : InnerForest)
  deriving Repr, DecidableEq

/-- A single-line module-XML document whose markup consists only of para,
warning and caution elements, with no warning or caution nested inside
another warning or caution. -/
inductive XmlForest where
  | nil
  | textCons (t : Str) (rest : XmlForest)
  | paraCons (children : XmlForest) (rest : XmlForest)
  | warnCons (children : InnerForest) (rest : XmlForest)
  | cautCons (children : InnerForest) (rest : XmlForest)
  deriving Repr, DecidableEq

/-- Character data contains no markup and no newline. -/
def textOk (t : Str) : Bool :=
  t.all (fun ch => ch != '<' && ch != '\n')

def innerWF : InnerForest → Bool
  | InnerForest.nil => true
  | InnerForest.textCons t r => textOk t && innerWF r
  | InnerForest.paraCons cs r => innerWF cs && innerWF r

def xmlWF : XmlForest → Bool
  | XmlForest.nil => true
  | XmlForest.textCons t r => textOk t && xmlWF r
  | XmlForest.paraCons cs r => xmlWF cs && xmlWF r
  | XmlForest.warnCons cs r => innerWF cs && xmlWF r
  | XmlForest.cautCons cs r => innerWF cs && xmlWF r

/-- Rendering of warning or caution content, parameterised by the tokens
used for the para element so one rendering covers every rewrite stage. -/
def renderInnerF (po pc : Str) : InnerForest → Str
  | InnerForest.nil => []
  | InnerForest.textCons t r => t ++ renderInnerF po pc r
  | InnerForest.paraCons cs r => po ++ renderInnerF po pc cs ++ pc ++ renderInnerF po pc r

/-- Rendering of a document, parameterised by the tokens used for the para,
warning and caution elements. -/
def renderXmlF (po pc wo wc co cc : Str) : XmlForest → Str
  | XmlForest.nil => []
  | XmlForest.textCons t r => t ++ renderXmlF po pc wo wc co cc r
  | XmlForest.paraCons cs r =>
    po ++ renderXmlF po pc wo wc co cc cs ++ pc ++ renderXmlF po pc wo wc co cc r
  | XmlForest.warnCons cs r =>
    wo ++ renderInnerF po pc cs ++ wc ++ renderXmlF po pc wo wc co cc r
  | XmlForest.cautCons cs r =>
    co ++ renderInnerF po pc cs ++ cc ++ renderXmlF po pc wo wc co cc r

/-- How one rendering token relates to a literal replacement pass: it is the
pattern and becomes the replacement, or the pattern can never match at it and
it stays unchanged. -/
def ReplHyp (pat repl x qx : Str) : Prop :=
  (x = pat ∧ qx = repl) ∨ (Skips pat x ∧ qx = x)

theorem replaceAllStr_tagstep (pat repl x qx rest : Str)
    (hpat : pat.head? = some '<') (hx : ReplHyp pat repl x qx) :
    replaceAllStr pat repl (x ++ rest) = qx ++ replaceAllStr pat repl rest := by
  rcases hx with ⟨h1, h2⟩ | ⟨hsk, h2⟩
  · rw [h1, h2]
    exact replaceAllStr_match pat repl rest (fun hn => by rw [hn] at hpat; cases hpat)
  · rw [h2]
    exact replaceAllStr_skip pat repl x rest hpat hsk

theorem text_chars_ne (pat t : Str) (hpat : pat.head? = some '<')
    (ht : textOk t = true) : ∀ ch ∈ t, pat.head? ≠ some ch := by
  intro ch hch heq
  rw [hpat] at heq
  injection heq with h2
  have := List.all_eq_true.mp ht ch hch
  simp at this
  exact this.1 h2.symm

theorem replaceAllStr_renderInnerF (pat repl po pc qpo qpc : Str)
    (hpat : pat.head? = some '<')
    (hpo : ReplHyp pat repl po qpo) (hpc : ReplHyp pat repl pc qpc)
    (g : InnerForest) (hwf : innerWF g = true) (rest : Str) :
    replaceAllStr pat repl (renderInnerF po pc g ++ rest)
      = renderInnerF qpo qpc g ++ replaceAllStr pat repl rest := by
  induction g generalizing rest with
  | nil => simp [renderInnerF]
  | textCons t r ih =>
    simp only [innerWF, Bool.and_eq_true] at hwf
    simp only [renderInnerF, List.append_assoc]
    rw [replaceAllStr_text pat repl t _ (text_chars_ne pat t hpat hwf.1), ih hwf.2]
  | paraCons cs r ihcs ihr =>
    simp only [innerWF, Bool.and_eq_true] at hwf
    simp only [renderInnerF, List.append_assoc]
    rw [replaceAllStr_tagstep pat repl po qpo _ hpat hpo, ihcs hwf.1,
      replaceAllStr_tagstep pat repl pc qpc _ hpat hpc, ihr hwf.2]

theorem replaceAllStr_renderXmlF (pat repl po pc wo wc co cc qpo qpc qwo qwc qco qcc : Str)
    (hpat : pat.head? = some '<')
    (hpo : ReplHyp pat repl po qpo) (hpc : ReplHyp pat repl pc qpc)
    (hwo : ReplHyp pat repl wo qwo) (hwc : ReplHyp pat repl wc qwc)
    (hco : ReplHyp pat repl co qco) (hcc : ReplHyp pat repl cc qcc)
    (f : XmlForest) (hwf : xmlWF f = true) (rest : Str) :
    replaceAllStr pat repl (renderXmlF po pc wo wc co cc f ++ rest)
      = renderXmlF qpo qpc qwo qwc qco qcc f ++ replaceAllStr pat repl rest := by
  induction f generalizing rest with
  | nil => simp [renderXmlF]
  | textCons t r ih =>
    simp only [xmlWF, Bool.and_eq_true] at hwf
    simp only [renderXmlF, List.append_assoc]
    rw [replaceAllStr_text pat repl t _ (text_chars_ne pat t hpat hwf.1), ih hwf.2]
  | paraCons cs r ihcs ihr =>
    simp only [xmlWF, Bool.and_eq_true] at hwf
    simp only [renderXmlF, List.append_assoc]
    rw [replaceAllStr_tagstep pat repl po qpo _ hpat hpo, ihcs hwf.1,
      replaceAllStr_tagstep pat repl pc qpc _ hpat hpc, ihr hwf.2]
  | warnCons cs r ihr =>
    simp only [xmlWF, Bool.and_eq_true] at hwf
    simp only [renderXmlF, List.append_assoc]
    rw [replaceAllStr_tagstep pat repl wo qwo _ hpat hwo,
      replaceAllStr_renderInnerF pat repl po pc qpo qpc hpat hpo hpc cs hwf.1,
      replaceAllStr_tagstep pat repl wc qwc _ hpat hwc, ihr hwf.2]
  | cautCons cs r ihr =>
    simp only [xmlWF, Bool.and_eq_true] at hwf
    simp only [renderXmlF, List.append_assoc]
    rw [replaceAllStr_tagstep pat repl co qco _ hpat hco,
      replaceAllStr_renderInnerF pat repl po pc qpo qpc hpat hpo hpc cs hwf.1,
      replaceAllStr_tagstep pat repl cc qcc _ hpat hcc, ihr hwf.2]

theorem splitFirst_walk_innerF (c po pc : Str) (hc : c.head? = some '<')
    (hcpo : Skips c po) (hcpc : Skips c pc)
    (g : InnerForest) (hwf : innerWF g = true) (X : Str) :
    splitFirst c (renderInnerF po pc g ++ X)
      = (splitFirst c X).map (fun p => (renderInnerF po pc g ++ p.1, p.2)) := by
  induction g generalizing X with
  | nil =>
    simp only [renderInnerF, List.nil_append]
    cases hq : splitFirst c X with
    | none => simp [hq]
    | some p => cases p; simp [hq]
  | textCons t r ih =>
    simp only [innerWF, Bool.and_eq_true] at hwf
    simp only [renderInnerF, List.append_assoc]
    rw [splitFirst_text c t _ (fun hn => by rw [hn] at hc; cases hc)
      (text_chars_ne c t hc hwf.1), ih hwf.2]
    cases hq : splitFirst c X with
    | none => simp [hq]
    | some p => cases p; simp [hq]
  | paraCons cs r ihcs ihr =>
    simp only [innerWF, Bool.and_eq_true] at hwf
    simp only [renderInnerF, List.append_assoc]
    rw [splitFirst_skip c po _ hc hcpo, ihcs hwf.1, splitFirst_skip c pc _ hc hcpc,
      ihr hwf.2]
    cases hq : splitFirst c X with
    | none => simp [hq]
    | some p => cases p; simp [hq]

theorem splitFirst_renderInnerF (c po pc : Str) (hc : c.head? = some '<')
    (hcpo : Skips c po) (hcpc : Skips c pc)
    (g : InnerForest) (hwf : innerWF g = true) (r : Str) :
    splitFirst c (renderInnerF po pc g ++ (c ++ r)) = some (renderInnerF po pc g, r) := by
  rw [splitFirst_walk_innerF c po pc hc hcpo hcpc g hwf,
    splitFirst_match c r (fun hn => by rw [hn] at hc; cases hc)]
  simp

theorem replaceTag_walk_innerF (o c pre post po pc : Str) (ho : o.head? = some '<')
    (hpo : Skips o po) (hpc : Skips o pc)
    (g : InnerForest) (hwf : innerWF g = true) (rest : Str) :
    replaceTag o c pre post (renderInnerF po pc g ++ rest)
      = renderInnerF po pc g ++ replaceTag o c pre post rest := by
  induction g generalizing rest with
  | nil => simp [renderInnerF]
  | textCons t r ih =>
    simp only [innerWF, Bool.and_eq_true] at hwf
    simp only [renderInnerF, List.append_assoc]
    rw [replaceTag_text o c pre post t _ (text_chars_ne o t ho hwf.1), ih hwf.2]
  | paraCons cs r ihcs ihr =>
    simp only [innerWF, Bool.and_eq_true] at hwf
    simp only [renderInnerF, List.append_assoc]
    rw [replaceTag_skip o c pre post po _ ho hpo, ihcs hwf.1,
      replaceTag_skip o c pre post pc _ ho hpc, ihr hwf.2]

/-- How an element's token pair relates to a tag-pair replacement pass: it
is the matched pair and is rewritten, or the open pattern can never match at
either token and both stay unchanged. -/
def TagPairHyp (o c pre post x y qx qy : Str) : Prop :=
  (x = o ∧ y = c ∧ qx = pre ∧ qy = post) ∨
    (Skips o x ∧ Skips o y ∧ qx = x ∧ qy = y)

theorem replaceTag_renderXmlF (o c pre post po pc wo wc co cc qwo qwc qco qcc : Str)
    (ho : o.head? = some '<') (hc : c.head? = some '<')
    (hpo : Skips o po) (hpc : Skips o pc)
    (hcpo : Skips c po) (hcpc : Skips c pc)
    (hw : TagPairHyp o c pre post wo wc qwo qwc)
    (hca : TagPairHyp o c pre post co cc qco qcc)
    (f : XmlForest) (hwf : xmlWF f = true) (rest : Str) :
    replaceTag o c pre post (renderXmlF po pc wo wc co cc f ++ rest)
      = renderXmlF po pc qwo qwc qco qcc f ++ replaceTag o c pre post rest := by
  induction f generalizing rest with
  | nil => simp [renderXmlF]
  | textCons t r ih =>
    simp only [xmlWF, Bool.and_eq_true] at hwf
    simp only [renderXmlF, List.append_assoc]
    rw [replaceTag_text o c pre post t _ (text_chars_ne o t ho hwf.1), ih hwf.2]
  | paraCons cs r ihcs ihr =>
    simp only [xmlWF, Bool.and_eq_true] at hwf
    simp only [renderXmlF, List.append_assoc]
    rw [replaceTag_skip o c pre post po _ ho hpo, ihcs hwf.1,
      replaceTag_skip o c pre post pc _ ho hpc, ihr hwf.2]
  | warnCons cs r ihr =>
    simp only [xmlWF, Bool.and_eq_true] at hwf
    simp only [renderXmlF, List.append_assoc]
    rcases hw with ⟨hx, hy, hqx, hqy⟩ | ⟨hsx, hsy, hqx, hqy⟩
    · subst hx; subst hy; subst hqx; subst hqy
      rw [replaceTag_match _ _ _ _ _ (renderInnerF po pc cs) _
        (fun hn => by rw [hn] at ho; cases ho)
        (splitFirst_renderInnerF _ po pc hc hcpo hcpc cs hwf.1 _)]
      rw [ihr hwf.2]
      simp [List.append_assoc]
    · subst hqx; subst hqy
      rw [replaceTag_skip o c pre post _ _ ho hsx,
        replaceTag_walk_innerF o c pre post po pc ho hpo hpc cs hwf.1,
        replaceTag_skip o c pre post _ _ ho hsy, ihr hwf.2]
  | cautCons cs r ihr =>
    simp only [xmlWF, Bool.and_eq_true] at hwf
    simp only [renderXmlF, List.append_assoc]
    rcases hca with ⟨hx, hy, hqx, hqy⟩ | ⟨hsx, hsy, hqx, hqy⟩
    · subst hx; subst hy; subst hqx; subst hqy
      rw [replaceTag_match _ _ _ _ _ (renderInnerF po pc cs) _
        (fun hn => by rw [hn] at ho; cases ho)
        (splitFirst_renderInnerF _ po pc hc hcpo hcpc cs hwf.1 _)]
      rw [ihr hwf.2]
      simp [List.append_assoc]
    · subst hqx; subst hqy
      rw [replaceTag_skip o c pre post _ _ ho hsx,
        replaceTag_walk_innerF o c pre post po pc ho hpo hpc cs hwf.1,
        replaceTag_skip o c pre post _ _ ho hsy, ihr hwf.2]

def tagParaOpen : Str := "<para>".data
def tagParaClose : Str := "</para>".data
def tagPOpen : Str := "<p>".data
def tagPClose : Str := "</p>".data
def tagWarnOpen : Str := "<warning>".data
def tagWarnClose : Str := "</warning>".data
def tagCautOpen : Str := "<caution>".data
def tagCautClose : Str := "</caution>".data
def divWarnOpen : Str := "<div class=\"warning\">".data
def divCautOpen : Str := "<div class=\"caution\">".data
def tagDivClose : Str := "</div>".data

/-- Embedded from src/unnamed/part_002 lines 6-13 (xmlToHtml in
RichTextEditor): para tags become p tags, then warning and caution elements
become the corresponding div blocks, in source order. -/
def xmlToHtmlL (s : Str) : Str :=
  replaceTag tagCautOpen tagCautClose divCautOpen tagDivClose
    (replaceTag tagWarnOpen tagWarnClose divWarnOpen tagDivClose
      (replaceAllStr tagParaClose tagPClose
        (replaceAllStr tagParaOpen tagPOpen s)))

/-- Embedded from src/unnamed/part_002 lines 15-22 (htmlToXml in
RichTextEditor): warning then caution div blocks become elements again, then
p tags become para tags, in source order. -/
def htmlToXmlL (s : Str) : Str :=
  replaceAllStr tagPClose tagParaClose
    (replaceAllStr tagPOpen tagParaOpen
      (replaceTag divCautOpen tagDivClose tagCautOpen tagCautClose
        (replaceTag divWarnOpen tagDivClose tagWarnOpen tagWarnClose s)))

theorem stage_r1 (f : XmlForest) (hwf : xmlWF f = true) :
    replaceAllStr tagParaOpen tagPOpen
        (renderXmlF tagParaOpen tagParaClose tagWarnOpen tagWarnClose tagCautOpen tagCautClose f)
      = renderXmlF tagPOpen tagParaClose tagWarnOpen tagWarnClose tagCautOpen tagCautClose f := by
  have h := replaceAllStr_renderXmlF tagParaOpen tagPOpen
    tagParaOpen tagParaClose tagWarnOpen tagWarnClose tagCautOpen tagCautClose
    tagPOpen tagParaClose tagWarnOpen tagWarnClose tagCautOpen tagCautClose
    (by decide)
    (Or.inl ⟨rfl, rfl⟩)
    (Or.inr ⟨skips_intro _ _ 2 (by decide) (by decide) (by decide) (by decide), rfl⟩)
    (Or.inr ⟨skips_intro _ _ 2 (by decide) (by decide) (by decide) (by decide), rfl⟩)
    (Or.inr ⟨skips_intro _ _ 2 (by decide) (by decide) (by decide) (by decide), rfl⟩)
    (Or.inr ⟨skips_intro _ _ 2 (by decide) (by decide) (by decide) (by decide), rfl⟩)
    (Or.inr ⟨skips_intro _ _ 2 (by decide) (by decide) (by decide) (by decide), rfl⟩)
    f hwf []
  simpa [replaceAllStr_nil] using h

theorem stage_r2 (f : XmlForest) (hwf : xmlWF f = true) :
    replaceAllStr tagParaClose tagPClose
        (renderXmlF tagPOpen tagParaClose tagWarnOpen tagWarnClose tagCautOpen tagCautClose f)
      = renderXmlF tagPOpen tagPClose tagWarnOpen tagWarnClose tagCautOpen tagCautClose f := by
  have h := replaceAllStr_renderXmlF tagParaClose tagPClose
    tagPOpen tagParaClose tagWarnOpen tagWarnClose tagCautOpen tagCautClose
    tagPOpen tagPClose tagWarnOpen tagWarnClose tagCautOpen tagCautClose
    (by decide)
    (Or.inr ⟨skips_intro _ _ 2 (by decide) (by decide) (by decide) (by decide), rfl⟩)
    (Or.inl ⟨rfl, rfl⟩)
    (Or.inr ⟨skips_intro _ _ 2 (by decide) (by decide) (by decide) (by decide), rfl⟩)
    (Or.inr ⟨skips_intro _ _ 3 (by decide) (by decide) (by decide) (by decide), rfl⟩)
    (Or.inr ⟨skips_intro _ _ 2 (by decide) (by decide) (by decide) (by decide), rfl⟩)
    (Or.inr ⟨skips_intro _ _ 3 (by decide) (by decide) (by decide) (by decide), rfl⟩)
    f hwf []
  simpa [replaceAllStr_nil] using h

theorem stage_r3 (f : XmlForest) (hwf : xmlWF f = true) :
    replaceTag tagWarnOpen tagWarnClose divWarnOpen tagDivClose
        (renderXmlF tagPOpen tagPClose tagWarnOpen tagWarnClose tagCautOpen tagCautClose f)
      = renderXmlF tagPOpen tagPClose divWarnOpen tagDivClose tagCautOpen tagCautClose f := by
  have h := replaceTag_renderXmlF tagWarnOpen tagWarnClose divWarnOpen tagDivClose
    tagPOpen tagPClose tagWarnOpen tagWarnClose tagCautOpen tagCautClose
    divWarnOpen tagDivClose tagCautOpen tagCautClose
    (by decide) (by decide)
    (skips_intro _ _ 2 (by decide) (by decide) (by decide) (by decide))
    (skips_intro _ _ 2 (by decide) (by decide) (by decide) (by decide))
    (skips_intro _ _ 2 (by decide) (by decide) (by decide) (by decide))
    (skips_intro _ _ 3 (by decide) (by decide) (by decide) (by decide))
    (Or.inl ⟨rfl, rfl, rfl, rfl⟩)
    (Or.inr ⟨skips_intro _ _ 2 (by decide) (by decide) (by decide) (by decide),
      skips_intro _ _ 2 (by decide) (by decide) (by decide) (by decide), rfl, rfl⟩)
    f hwf []
  simpa [replaceTag_nil] using h

theorem stage_r4 (f : XmlForest) (hwf : xmlWF f = true) :
    replaceTag tagCautOpen tagCautClose divCautOpen tagDivClose
        (renderXmlF tagPOpen tagPClose divWarnOpen tagDivClose tagCautOpen tagCautClose f)
      = renderXmlF tagPOpen tagPClose divWarnOpen tagDivClose divCautOpen tagDivClose f := by
  have h := replaceTag_renderXmlF tagCautOpen tagCautClose divCautOpen tagDivClose
    tagPOpen tagPClose divWarnOpen tagDivClose tagCautOpen tagCautClose
    divWarnOpen tagDivClose divCautOpen tagDivClose
    (by decide) (by decide)
    (skips_intro _ _ 2 (by decide) (by decide) (by decide) (by decide))
    (skips_intro _ _ 2 (by decide) (by decide) (by decide) (by decide))
    (skips_intro _ _ 2 (by decide) (by decide) (by decide) (by decide))
    (skips_intro _ _ 3 (by decide) (by decide) (by decide) (by decide))
    (Or.inr ⟨skips_intro _ _ 2 (by decide) (by decide) (by decide) (by decide),
      skips_intro _ _ 2 (by decide) (by decide) (by decide) (by decide), rfl, rfl⟩)
    (Or.inl ⟨rfl, rfl, rfl, rfl⟩)
    f hwf []
  simpa [replaceTag_nil] using h

theorem stage_s1 (f : XmlForest) (hwf : xmlWF f = true) :
    replaceTag divWarnOpen tagDivClose tagWarnOpen tagWarnClose
        (renderXmlF tagPOpen tagPClose divWarnOpen tagDivClose divCautOpen tagDivClose f)
      = renderXmlF tagPOpen tagPClose tagWarnOpen tagWarnClose divCautOpen tagDivClose f := by
  have h := replaceTag_renderXmlF divWarnOpen tagDivClose tagWarnOpen tagWarnClose
    tagPOpen tagPClose divWarnOpen tagDivClose divCautOpen tagDivClose
    tagWarnOpen tagWarnClose divCautOpen tagDivClose
    (by decide) (by decide)
    (skips_intro _ _ 2 (by decide) (by decide) (by decide) (by decide))
    (skips_intro _ _ 2 (by decide) (by decide) (by decide) (by decide))
    (skips_intro _ _ 2 (by decide) (by decide) (by decide) (by decide))
    (skips_intro _ _ 3 (by decide) (by decide) (by decide) (by decide))
    (Or.inl ⟨rfl, rfl, rfl, rfl⟩)
    (Or.inr ⟨skips_intro _ _ 13 (by decide) (by decide) (by decide) (by decide),
      skips_intro _ _ 2 (by decide) (by decide) (by decide) (by decide), rfl, rfl⟩)
    f hwf []
  simpa [replaceTag_nil] using h

theorem stage_s2 (f : XmlForest) (hwf : xmlWF f = true) :
    replaceTag divCautOpen tagDivClose tagCautOpen tagCautClose
        (renderXmlF tagPOpen tagPClose tagWarnOpen tagWarnClose divCautOpen tagDivClose f)
      = renderXmlF tagPOpen tagPClose tagWarnOpen tagWarnClose tagCautOpen tagCautClose f := by
  have h := replaceTag_renderXmlF divCautOpen tagDivClose tagCautOpen tagCautClose
    tagPOpen tagPClose tagWarnOpen tagWarnClose divCautOpen tagDivClose
    tagWarnOpen tagWarnClose tagCautOpen tagCautClose
    (by decide) (by decide)
    (skips_intro _ _ 2 (by decide) (by decide) (by decide) (by decide))
    (skips_intro _ _ 2 (by decide) (by decide) (by decide) (by decide))
    (skips_intro _ _ 2 (by decide) (by decide) (by decide) (by decide))
    (skips_intro _ _ 3 (by decide) (by decide) (by decide) (by decide))
    (Or.inr ⟨skips_intro _ _ 2 (by decide) (by decide) (by decide) (by decide),
      skips_intro _ _ 2 (by decide) (by decide) (by decide) (by decide), rfl, rfl⟩)
    (Or.inl ⟨rfl, rfl, rfl, rfl⟩)
    f hwf []
  simpa [replaceTag_nil] using h

theorem stage_s3 (f : XmlForest) (hwf : xmlWF f = true) :
    replaceAllStr tagPOpen tagParaOpen
        (renderXmlF tagPOpen tagPClose tagWarnOpen tagWarnClose tagCautOpen tagCautClose f)
      = renderXmlF tagParaOpen tagPClose tagWarnOpen tagWarnClose tagCautOpen tagCautClose f := by
  have h := replaceAllStr_renderXmlF tagPOpen tagParaOpen
    tagPOpen tagPClose tagWarnOpen tagWarnClose tagCautOpen tagCautClose
    tagParaOpen tagPClose tagWarnOpen tagWarnClose tagCautOpen tagCautClose
    (by decide)
    (Or.inl ⟨rfl, rfl⟩)
    (Or.inr ⟨skips_intro _ _ 2 (by decide) (by decide) (by decide) (by decide), rfl⟩)
    (Or.inr ⟨skips_intro _ _ 2 (by decide) (by decide) (by decide) (by decide), rfl⟩)
    (Or.inr ⟨skips_intro _ _ 2 (by decide) (by decide) (by decide) (by decide), rfl⟩)
    (Or.inr ⟨skips_intro _ _ 2 (by decide) (by decide) (by decide) (by decide), rfl⟩)
    (Or.inr ⟨skips_intro _ _ 2 (by decide) (by decide) (by decide) (by decide), rfl⟩)
    f hwf []
  simpa [replaceAllStr_nil] using h

theorem stage_s4 (f : XmlForest) (hwf : xmlWF f = true) :
    replaceAllStr tagPClose tagParaClose
        (renderXmlF tagParaOpen tagPClose tagWarnOpen tagWarnClose tagCautOpen tagCautClose f)
      = renderXmlF tagParaOpen tagParaClose tagWarnOpen tagWarnClose tagCautOpen tagCautClose f := by
  have h := replaceAllStr_renderXmlF tagPClose tagParaClose
    tagParaOpen tagPClose tagWarnOpen tagWarnClose tagCautOpen tagCautClose
    tagParaOpen tagParaClose tagWarnOpen tagWarnClose tagCautOpen tagCautClose
    (by decide)
    (Or.inr ⟨skips_intro _ _ 2 (by decide) (by decide) (by decide) (by decide), rfl⟩)
    (Or.inl ⟨rfl, rfl⟩)
    (Or.inr ⟨skips_intro _ _ 2 (by decide) (by decide) (by decide) (by decide), rfl⟩)
    (Or.inr ⟨skips_intro _ _ 3 (by decide) (by decide) (by decide) (by decide), rfl⟩)
    (Or.inr ⟨skips_intro _ _ 2 (by decide) (by decide) (by decide) (by decide), rfl⟩)
    (Or.inr ⟨skips_intro _ _ 3 (by decide) (by decide) (by decide) (by decide), rfl⟩)
    f hwf []
  simpa [replaceAllStr_nil] using h

theorem roundtrip_core (f : XmlForest) (hwf : xmlWF f = true) :
    htmlToXmlL (xmlToHtmlL
      (renderXmlF tagParaOpen tagParaClose tagWarnOpen tagWarnClose tagCautOpen tagCautClose f))
    = renderXmlF tagParaOpen tagParaClose tagWarnOpen tagWarnClose tagCautOpen tagCautClose f := by
  unfold xmlToHtmlL htmlToXmlL
  rw [stage_r1 f hwf, stage_r2 f hwf, stage_r3 f hwf, stage_r4 f hwf,
    stage_s1 f hwf, stage_s2 f hwf, stage_s3 f hwf, stage_s4 f hwf]

/-- Embedded from src/unnamed/part_002 (xmlToHtml): the string-level entry
point, including the falsy early return for the empty string. -/
def xmlToHtml (s : String) : String :=
  if s = "" then "" else String.mk (xmlToHtmlL s.data)

/-- Embedded from src/unnamed/part_002 (htmlToXml): the string-level entry
point, including the falsy early return for the empty string. -/
def htmlToXml (s : String) : String :=
  if s = "" then "" else String.mk (htmlToXmlL s.data)

/-- The XML string of a document, with the standard element tags. -/
def renderXmlDoc (f : XmlForest) : String :=
  String.mk (renderXmlF tagParaOpen tagParaClose tagWarnOpen tagWarnClose tagCautOpen tagCautClose f)

theorem xmlToHtmlL_nil : xmlToHtmlL [] = [] := by
  simp [xmlToHtmlL, replaceAllStr_nil, replaceTag_nil]

theorem htmlToXmlL_nil : htmlToXmlL [] = [] := by
  simp [htmlToXmlL, replaceAllStr_nil, replaceTag_nil]

theorem string_mk_eq_empty_iff (l : Str) : String.mk l = "" ↔ l = [] := by
  constructor
  · intro h
    have := congrArg String.data h
    simpa using this
  · intro h
    rw [h]

/-- Claim C10: for every single-line XML string whose markup consists only
of para, warning and caution elements with no warning/caution nested inside
each other, converting to the editor's HTML form and back is the identity:
htmlToXml (xmlToHtml x) = x. -/
theorem c10_roundtrip (f : XmlForest) (hwf : xmlWF f = true) :
    htmlToXml (xmlToHtml (renderXmlDoc f)) = renderXmlDoc f := by
  by_cases hnil :
      renderXmlF tagParaOpen tagParaClose tagWarnOpen tagWarnClose tagCautOpen tagCautClose f = []
  · rw [renderXmlDoc, hnil]
    rfl
  · have hne : renderXmlDoc f ≠ "" := by
      rw [renderXmlDoc]
      intro h
      exact hnil ((string_mk_eq_empty_iff _).mp h)
    rw [xmlToHtml, if_neg hne]
    have hdata : (renderXmlDoc f).data =
        renderXmlF tagParaOpen tagParaClose tagWarnOpen tagWarnClose tagCautOpen tagCautClose f := rfl
    rw [hdata]
    have hxne : String.mk (xmlToHtmlL
        (renderXmlF tagParaOpen tagParaClose tagWarnOpen tagWarnClose tagCautOpen tagCautClose f)) ≠ "" := by
      intro h
      have h2 := (string_mk_eq_empty_iff _).mp h
      have h3 := roundtrip_core f hwf
      rw [h2, htmlToXmlL_nil] at h3
      exact hnil h3.symm
    rw [htmlToXml, if_neg hxne]
    rw [renderXmlDoc]
    exact congrArg String.mk (roundtrip_core f hwf)

/-- A concrete document exercising text, a para, a warning, and a caution
containing a para. -/
def demoForest : XmlForest :=
  XmlForest.paraCons (XmlForest.textCons "Start the engine.".data XmlForest.nil)
    (XmlForest.warnCons (InnerForest.textCons "Hot surface!".data InnerForest.nil)
      (XmlForest.cautCons
        (InnerForest.paraCons (InnerForest.textCons "Wear gloves.".data InnerForest.nil)
          InnerForest.nil)
        XmlForest.nil))

/-- Witness for C10 on a concrete document. -/
theorem c10_roundtrip_witness :
    xmlWF demoForest = true ∧
    htmlToXml (xmlToHtml (renderXmlDoc demoForest)) = renderXmlDoc demoForest :=
  ⟨by decide, c10_roundtrip demoForest (by decide)⟩
